import Mathlib

/-!
# Verification of the nettools ping client

Shallow embedding of the ICMP/IPv4 codec (`src/include/header.hpp`) and of the
pinger state machine (`src/src/ping.cpp`), together with proofs of the
testable properties stated in the specification.

Conventions of the embedding:
* C `unsigned char` values are `Nat` kept below 256 by explicit `% 256` at the
  points where the C code performs a narrowing conversion.
* C `unsigned short` becomes `Nat` with `% 65536`, C `unsigned int` becomes
  `Nat` with `% 4294967296` where wrap-around can occur.
* `std::istream` extraction is modelled by `Option`-returning decoders over a
  `List Nat` of input bytes: `none` corresponds to the fail state of the
  stream (truncated read or an explicit `setstate(failbit)`).
* Timestamps (`boost::posix_time::ptime`) are modelled as `Int` counts of
  milliseconds; `long double` round-trip-time arithmetic is modelled by exact
  rationals (`Rat`).
-/

namespace Nettool

/-- The 8-byte representation array `rep_` of `icmp_header`
(header.hpp, lines 27-81).  One field per byte. -/
structure icmp_header where
  b0 : Nat
  b1 : Nat
  b2 : Nat
  b3 : Nat
  b4 : Nat
  b5 : Nat
  b6 : Nat
  b7 : Nat
deriving DecidableEq

/-- Default constructor: `std::fill(rep_, rep_ + 8, 0)`. -/
def icmp_header.zero : icmp_header := ⟨0, 0, 0, 0, 0, 0, 0, 0⟩

/-- Getter `type()`: `rep_[0]`. -/
def icmp_header.type (h : icmp_header) : Nat := h.b0

/-- Getter `code()`: `rep_[1]`. -/
def icmp_header.code (h : icmp_header) : Nat := h.b1

/-- Getter `checksum()`: `decode(2, 3)`, i.e. `(rep_[2] << 8) + rep_[3]`
returned as `unsigned short`. -/
def icmp_header.checksum (h : icmp_header) : Nat := (h.b2 * 256 + h.b3) % 65536

/-- Getter `identifier()`: `decode(4, 5)`. -/
def icmp_header.identifier (h : icmp_header) : Nat := (h.b4 * 256 + h.b5) % 65536

/-- Getter `sequence_number()`: `decode(6, 7)`. -/
def icmp_header.sequence_number (h : icmp_header) : Nat := (h.b6 * 256 + h.b7) % 65536

/-- Setter `type(n)`: the argument is an `unsigned char`. -/
def icmp_header.setType (h : icmp_header) (n : Nat) : icmp_header :=
  { h with b0 := n % 256 }

/-- Setter `code(n)`. -/
def icmp_header.setCode (h : icmp_header) (n : Nat) : icmp_header :=
  { h with b1 := n % 256 }

/-- Setter `checksum(n)`: `encode(2, 3, n)` with `n` narrowed to
`unsigned short`; high byte at the lower address. -/
def icmp_header.setChecksum (h : icmp_header) (n : Nat) : icmp_header :=
  { h with b2 := n % 65536 / 256, b3 := n % 256 }

/-- Setter `identifier(n)`: `encode(4, 5, n)`. -/
def icmp_header.setIdentifier (h : icmp_header) (n : Nat) : icmp_header :=
  { h with b4 := n % 65536 / 256, b5 := n % 256 }

/-- Setter `sequence_number(n)`: `encode(6, 7, n)`. -/
def icmp_header.setSequenceNumber (h : icmp_header) (n : Nat) : icmp_header :=
  { h with b6 := n % 65536 / 256, b7 := n % 256 }

/-- `operator<<`: writes the eight bytes of `rep_` to the stream. -/
def icmp_header.encode (h : icmp_header) : List Nat :=
  [h.b0, h.b1, h.b2, h.b3, h.b4, h.b5, h.b6, h.b7]

/-- `operator>>`: `is.read(rep_, 8)` — fails (stream failbit) when fewer than
eight bytes remain, otherwise consumes exactly eight bytes. -/
def icmp_header.decode (input : List Nat) : Option (icmp_header × List Nat) :=
  if input.length < 8 then none
  else some (⟨input.getD 0 0 % 256, input.getD 1 0 % 256, input.getD 2 0 % 256,
              input.getD 3 0 % 256, input.getD 4 0 % 256, input.getD 5 0 % 256,
              input.getD 6 0 % 256, input.getD 7 0 % 256⟩,
             input.drop 8)

/-- The body loop of `compute_checksum` (header.hpp lines 89-97): bytes are
taken two at a time big-endian; a final odd byte contributes as the high byte
of a zero-padded word.  Each `*body_iter` is narrowed to `unsigned char`. -/
def bodySum : List Nat → Nat
  | [] => 0
  | [b] => b % 256 * 256
  | b1 :: b2 :: rest => b1 % 256 * 256 + b2 % 256 + bodySum rest

/-- Lines 98-100 of header.hpp: fold the carries of the 32-bit accumulator
back in twice, then take the low 16 bits of the bitwise complement
(`static_cast<unsigned short>(~sum)` where `sum` is a 32-bit unsigned). -/
def fold_checksum (sum : Nat) : Nat :=
  (4294967295 - (sum / 65536 + sum % 65536 + (sum / 65536 + sum % 65536) / 65536)) % 65536

/-- The 16-bit word sum of the header fields read by `compute_checksum`
(line 86-87: `(type << 8) + code + identifier + sequence_number`) plus the
body words. -/
def icmp_field_sum (h : icmp_header) (body : List Nat) : Nat :=
  h.type * 256 + h.code + h.identifier + h.sequence_number + bodySum body

/-- `compute_checksum` (header.hpp lines 84-101): accumulate the header words
(the checksum field is not read) and the body words in a 32-bit unsigned sum,
fold, complement, and store the result into the checksum field. -/
def compute_checksum (h : icmp_header) (body : List Nat) : icmp_header :=
  h.setChecksum (fold_checksum (icmp_field_sum h body % 4294967296))

/-- The RFC 1071 verification sum: the same one's-complement 16-bit summation
that `compute_checksum` performs, but taken over the whole header — the
checksum field included — plus the body.  A datagram verifies when the result
is zero. -/
def ones_complement_verify (h : icmp_header) (body : List Nat) : Nat :=
  fold_checksum ((icmp_field_sum h body + h.checksum) % 4294967296)

/-- The representation array `rep_` of `ipv4_header` (header.hpp lines
138-185); the list holds the 60 bytes. -/
structure ipv4_header where
  rep : List Nat
deriving DecidableEq

/-- Getter `version()`: `(rep_[0] >> 4) & 0xF`. -/
def ipv4_header.version (h : ipv4_header) : Nat := h.rep.getD 0 0 / 16 % 16

/-- Getter `header_length()`: `(rep_[0] & 0xF) * 4`. -/
def ipv4_header.header_length (h : ipv4_header) : Nat := h.rep.getD 0 0 % 16 * 4

/-- Getter `time_to_live()`: `rep_[8]`. -/
def ipv4_header.time_to_live (h : ipv4_header) : Nat := h.rep.getD 8 0

/-- `operator>>` for `ipv4_header` (header.hpp lines 166-177): read 20 bytes,
fail if the version is not 4, compute the signed options length
`header_length() - 20` (a `std::streamsize`), fail if it is negative or
exceeds 40, otherwise read exactly that many further bytes.  The remaining 40
minus options bytes of `rep_` keep their zero initialisation. -/
def decode_ipv4 (input : List Nat) : Option (ipv4_header × List Nat) :=
  if input.length < 20 then none
  else
    let b0 := input.getD 0 0 % 256
    let options_length : Int := ((b0 % 16 * 4 : Nat) : Int) - 20
    if b0 / 16 % 16 ≠ 4 then none
    else if options_length < 0 ∨ options_length > 40 then none
    else if (input.length : Int) < 20 + options_length then none
    else some (⟨(input.take (20 + options_length.toNat)).map (fun b => b % 256) ++
                List.replicate (40 - options_length.toNat) 0⟩,
               input.drop (20 + options_length.toNat))

/-- Combined decode performed by `handle_receive` (ping.cpp line 292:
`is >> ipv4_hdr >> icmp_hdr`): if the IPv4 extraction fails the stream is in
the fail state and the ICMP extraction is a no-op, so the whole decode fails;
otherwise the ICMP header is read from the remaining bytes. -/
def decode_reply (data : List Nat) : Option (ipv4_header × icmp_header) :=
  match decode_ipv4 data with
  | none => none
  | some (ip, rest) =>
    match icmp_header.decode rest with
    | none => none
    | some (ic, _) => some (ip, ic)

/-- Error-code outcome passed to an asio completion handler. -/
inductive errc where
  | ok
  | cancelled
  | other
deriving DecidableEq

/-- The completion handler bound to the deadline timer: `handle_timeout`
after a send, `start_send` after a timeout. -/
inductive handlerTag where
  | onTimeout
  | onSend
deriving DecidableEq

/-- The mutable state of the `pinger` object (ping.cpp lines 325-341).
Timestamps are milliseconds (`Int`); the `long double` round-trip-time
accumulators are modelled by exact rationals. -/
structure pinger_state where
  sequence_number : Nat
  time_sent : Int
  num_replies : Nat
  num_transmitted : Nat
  num_received : Nat
  ttl_min : Rat
  ttl_max : Rat
  ttl_sum : Rat
  ttl_sum2 : Rat
deriving DecidableEq

/-- Observable effects of one handler invocation: socket sends, timer
operations and console output.  A report line also carries the source
address and TTL in the program; only the fields the properties inspect are
kept. -/
inductive action where
  | sendPacket (h : icmp_header) (body : List Nat) (t : Int)
  | armTimer (deadline : Int) (tag : handlerTag)
  | printTimedOut
  | printError
  | report (nbytes : Nat) (seq : Nat) (rtt : Rat)
  | cancelTimer
  | rearmReceive
deriving DecidableEq

/-- Model of `LDBL_MAX`, the initial value of `ttl_min_`; only its being
larger than any reachable round-trip time matters. -/
def LDBL_MAX_model : Rat := ((2 ^ 16384 : Nat) : Rat)

/-- The member initialisers of the `pinger` constructor (ping.cpp lines
169-179). -/
def pinger_init : pinger_state :=
  { sequence_number := 0, time_sent := 0, num_replies := 0, num_transmitted := 0,
    num_received := 0, ttl_min := LDBL_MAX_model, ttl_max := 0, ttl_sum := 0,
    ttl_sum2 := 0 }

/-- `start_send` (ping.cpp lines 229-257): build a 56-byte constant body,
increment the 16-bit sequence number, build and checksum the echo-request
header, count the transmission, record the send time, send, reset the reply
counter and arm the 5-second timeout timer.  `ident` is the process
identifier feeding `get_identifier()`. -/
def start_send (ident : Nat) (now : Int) (st : pinger_state) :
    pinger_state × List action :=
  let body : List Nat := List.replicate 56 122
  let seq := (st.sequence_number + 1) % 65536
  let echo_request :=
    (((icmp_header.zero.setType 8).setCode 0).setIdentifier (ident % 65536)).setSequenceNumber seq
  let hdr := compute_checksum echo_request body
  ({ st with sequence_number := seq, num_transmitted := st.num_transmitted + 1,
             time_sent := now, num_replies := 0 },
   [action.sendPacket hdr body now, action.armTimer (now + 5000) handlerTag.onTimeout])

/-- `handle_timeout` (ping.cpp lines 259-268): report the timeout when no
reply was counted and the wait ended without error; report unexpected errors;
re-arm the timer to `time_sent_ + 1s` with `start_send` as its handler. -/
def handle_timeout (ec : errc) (st : pinger_state) : pinger_state × List action :=
  (st,
    (if st.num_replies = 0 ∧ ec = errc.ok then [action.printTimedOut] else []) ++
    (if ec = errc.other then [action.printError] else []) ++
    [action.armTimer (st.time_sent + 1000) handlerTag.onSend])

/-- `handle_receive` (ping.cpp lines 278-319).  On error: log and re-arm.
Otherwise: a datagram older than 5000 ms returns early (note: without
reaching the `start_receive()` call at the end of the function).  Then the
IPv4 and ICMP headers are decoded and the reply is accepted only when the
decode succeeded, the type is echo-reply, and identifier and sequence number
match; acceptance cancels the timer on the first reply of the cycle, updates
the statistics and prints a report line. -/
def handle_receive (ident : Nat) (ec : errc) (data : List Nat) (now : Int)
    (st : pinger_state) : pinger_state × List action :=
  match ec with
  | errc.ok =>
    if now - st.time_sent > 5000 then (st, [])
    else
      match decode_reply data with
      | none => (st, [action.rearmReceive])
      | some (ip, ic) =>
        if ic.type = 0 ∧ ic.identifier = ident % 65536 ∧
            ic.sequence_number = st.sequence_number then
          let rtt : Rat := ((now - st.time_sent : Int) : Rat)
          ({ st with
              num_replies := st.num_replies + 1,
              num_received := st.num_received + 1,
              ttl_min := min st.ttl_min rtt,
              ttl_max := max st.ttl_max rtt,
              ttl_sum := st.ttl_sum + rtt,
              ttl_sum2 := st.ttl_sum2 + rtt * rtt },
           (if st.num_replies = 0 then [action.cancelTimer] else []) ++
           [action.report (data.length - ip.header_length) ic.sequence_number rtt,
            action.rearmReceive])
        else (st, [action.rearmReceive])
  | _ => (st, [action.printError, action.rearmReceive])

/-- Sequentially deliver a list of datagrams (bytes paired with their arrival
time) to `handle_receive`, collecting each invocation's action list. -/
def handle_receive_all (ident : Nat) (events : List (List Nat × Int))
    (st : pinger_state) : pinger_state × List (List action) :=
  match events with
  | [] => (st, [])
  | (d, t) :: rest =>
    let r1 := handle_receive ident errc.ok d t st
    let r2 := handle_receive_all ident rest r1.1
    (r2.1, r1.2 :: r2.2)

/-- The acceptance condition of `handle_receive`: fresh (within the 5-second
window), decodable, an echo reply, and identifier and sequence number match
the session. -/
def accepts (ident : Nat) (st : pinger_state) (data : List Nat) (now : Int) : Prop :=
  ¬ now - st.time_sent > 5000 ∧
  ∃ ip ic, decode_reply data = some (ip, ic) ∧ ic.type = 0 ∧
    ic.identifier = ident % 65536 ∧ ic.sequence_number = st.sequence_number

/-- Round-trip times of a list of arrival events, relative to a send time. -/
def rtts (sent : Int) (events : List (List Nat × Int)) : List Rat :=
  events.map fun p => ((p.2 - sent : Int) : Rat)

/-- Number of report lines in an action list. -/
def countReport (as : List action) : Nat :=
  (as.filter fun a => match a with | action.report _ _ _ => true | _ => false).length

/-- Number of timer cancellations in an action list. -/
def countCancel (as : List action) : Nat :=
  (as.filter fun a => match a with | action.cancelTimer => true | _ => false).length

/-- Number of receive re-arms in an action list. -/
def countRearm (as : List action) : Nat :=
  (as.filter fun a => match a with | action.rearmReceive => true | _ => false).length

/-- Number of timed-out notices in a timestamped trace. -/
def countTimedOut (tr : List (Int × action)) : Nat :=
  (tr.filter fun p => match p.2 with | action.printTimedOut => true | _ => false).length

/-- The (time, sequence-number) pairs of the packets sent in a trace. -/
def send_events (tr : List (Int × action)) : List (Int × Nat) :=
  tr.filterMap fun p =>
    match p.2 with
    | action.sendPacket h _ _ => some (p.1, h.sequence_number)
    | _ => none

/-- The sequence numbers carried by the packets of an action list. -/
def sent_seqs (as : List action) : List Nat :=
  as.filterMap fun a =>
    match a with
    | action.sendPacket h _ _ => some h.sequence_number
    | _ => none

/-- The deadline of the (single) timer armed by a handler's action list. -/
def armed_deadline (as : List action) : Int :=
  (as.filterMap fun a =>
    match a with
    | action.armTimer d _ => some d
    | _ => none).headD 0

/-- One probe cycle of the event loop in which no datagram is delivered:
`start_send` runs at `t0`, then the event loop fires the armed timer.  An
asio `deadline_timer` invokes its handler once the deadline is reached; a
wait on an already-expired deadline completes at once, so a handler armed at
deadline `d` when the loop's clock is at `now` runs at `max now d`.  The
timeout handler runs, re-arms the timer, and the loop fires it again, running
the next `start_send`.  Returns the timestamped trace and the final state. -/
def quiet_cycle (ident : Nat) (t0 : Int) (st0 : pinger_state) :
    List (Int × action) × pinger_state :=
  let r1 := start_send ident t0 st0
  let t1 := max t0 (armed_deadline r1.2)
  let r2 := handle_timeout errc.ok r1.1
  let t2 := max t1 (armed_deadline r2.2)
  let r3 := start_send ident t2 r2.1
  ((r1.2.map fun a => (t0, a)) ++ (r2.2.map fun a => (t1, a)) ++
    (r3.2.map fun a => (t2, a)), r3.1)

/-- Division that marks the divisor-zero case: in the program the quotients
are `long double`, and dividing by zero produces a non-finite value
(infinity or NaN), modelled here as `none`. -/
def safe_div (a b : Rat) : Option Rat := if b = 0 then none else some (a / b)

/-- The summary printed by `handle_termination`.  `rtt_mdev_sq` is the
radicand `sum2/received − (sum/received)²` passed to `sqrtl` (the square
root itself is not representable over `Rat` and is irrelevant to the
division-by-zero question). -/
structure term_summary where
  packets_transmitted : Nat
  packets_received : Nat
  packets_lossed : Nat
  loss_ratio : Option Rat
  rtt_avg : Option Rat
  rtt_mdev_sq : Option Rat
deriving DecidableEq

/-- `handle_termination` (ping.cpp lines 192-212): `ttl_sum_ /= num_received_`
and `ttl_sum2_ /= num_received_` are performed unconditionally, as is the
loss division by `num_transmitted_`; there is no zero guard in the code, so
the embedding exposes the zero-divisor case through `safe_div`. -/
def handle_termination (st : pinger_state) : term_summary :=
  let avg := safe_div st.ttl_sum (st.num_received : Rat)
  let avg2 := safe_div st.ttl_sum2 (st.num_received : Rat)
  { packets_transmitted := st.num_transmitted
    packets_received := st.num_received
    packets_lossed := st.num_transmitted - st.num_received
    loss_ratio := safe_div ((st.num_transmitted - st.num_received : Nat) : Rat)
      (st.num_transmitted : Rat)
    rtt_avg := avg
    rtt_mdev_sq :=
      match avg, avg2 with
      | some m, some m2 => some (m2 - m * m)
      | _, _ => none }

/-! ## Checksum arithmetic -/

theorem fold_checksum_lt (x : Nat) : fold_checksum x < 65536 := by
  unfold fold_checksum
  omega

/-- Closed form of the double fold-and-complement for 32-bit inputs. -/
theorem fold_checksum_closed (x : Nat) (hx : x < 4294967296) :
    fold_checksum x =
      (if x / 65536 + x % 65536 ≤ 65535 then 65535 - (x / 65536 + x % 65536)
       else 131070 - (x / 65536 + x % 65536)) := by
  have h1 : x / 65536 < 65536 := by omega
  have h2 : x % 65536 < 65536 := by omega
  unfold fold_checksum
  generalize hq : x / 65536 = q at *
  generalize hr : x % 65536 = r at *
  have h3 : (q + r) / 65536 = if q + r ≤ 65535 then 0 else 1 := by
    split <;> omega
  rw [h3]
  split <;> omega

/-- The abstract properties of the fold that drive the RFC 1071 round trip:
the complemented fold is a one's-complement negation of the input modulo
65535, it fits in 16 bits, and it is 65535 exactly on input 0. -/
theorem fold_checksum_bounds (x : Nat) (hx : x < 4294967296) :
    (x + fold_checksum x) % 65535 = 0 ∧ fold_checksum x ≤ 65535 ∧
    (x = 0 → fold_checksum x = 65535) ∧ (x ≠ 0 → fold_checksum x ≤ 65534) := by
  rw [fold_checksum_closed x hx]
  refine ⟨?_, ?_, ?_, ?_⟩ <;> · split <;> omega

/-- Re-summing any word sum `S` together with the checksum computed from `S`
(both accumulated modulo 2^32 as the 32-bit accumulator does) verifies to
zero. -/
theorem verify_core (S : Nat) :
    fold_checksum ((S + fold_checksum (S % 4294967296)) % 4294967296) = 0 := by
  have hx : S % 4294967296 < 4294967296 := Nat.mod_lt _ (by norm_num)
  obtain ⟨h1, h2, h3, h4⟩ := fold_checksum_bounds (S % 4294967296) hx
  have hT : (S + fold_checksum (S % 4294967296)) % 4294967296 < 4294967296 :=
    Nat.mod_lt _ (by norm_num)
  rcases Nat.eq_zero_or_pos (S % 4294967296) with h0 | h0
  · have h3' := h3 h0
    have hTval : (S + fold_checksum (S % 4294967296)) % 4294967296 = 65535 := by omega
    obtain ⟨g1, g2, g3, g4⟩ := fold_checksum_bounds _ hT
    have g4' := g4 (by omega)
    omega
  · have h4' := h4 (by omega)
    have hlt : S % 4294967296 + fold_checksum (S % 4294967296) < 4294967296 := by omega
    have hTval : (S + fold_checksum (S % 4294967296)) % 4294967296 =
        S % 4294967296 + fold_checksum (S % 4294967296) := by omega
    obtain ⟨g1, g2, g3, g4⟩ := fold_checksum_bounds _ hT
    have g4' := g4 (by omega)
    omega

theorem icmp_field_sum_setChecksum (h : icmp_header) (n : Nat) (body : List Nat) :
    icmp_field_sum (icmp_header.setChecksum h n) body = icmp_field_sum h body := rfl

theorem checksum_setChecksum (h : icmp_header) (n : Nat) :
    (icmp_header.setChecksum h n).checksum = n % 65536 := by
  simp only [icmp_header.setChecksum, icmp_header.checksum]
  omega

/-- C1: for every ICMP header field tuple (type, code, identifier, sequence)
and every byte-sequence body, after `compute_checksum` embeds the RFC 1071
checksum in the header, re-running the one's-complement 16-bit sum over the
whole header — the embedded checksum field included — plus the body yields 0
(the complemented verification sum `ones_complement_verify` vanishes). -/
theorem checksum_roundtrip (t c i s : Nat) (body : List Nat) :
    ones_complement_verify
      (compute_checksum
        ((((icmp_header.zero.setType t).setCode c).setIdentifier i).setSequenceNumber s)
        body) body = 0 := by
  unfold ones_complement_verify compute_checksum
  rw [icmp_field_sum_setChecksum, checksum_setChecksum,
    Nat.mod_eq_of_lt (fold_checksum_lt _)]
  exact verify_core _

/-- C10: `compute_checksum` writes only the two checksum bytes — type, code,
identifier and sequence-number bytes are unchanged (the body, an input-only
iterator range, is untouched by construction) — and it never reads the prior
checksum field, so the result is identical whatever was stored there. -/
theorem compute_checksum_frame (h : icmp_header) (body : List Nat) (x : Nat) :
    ((compute_checksum h body).b0 = h.b0 ∧ (compute_checksum h body).b1 = h.b1 ∧
     (compute_checksum h body).b4 = h.b4 ∧ (compute_checksum h body).b5 = h.b5 ∧
     (compute_checksum h body).b6 = h.b6 ∧ (compute_checksum h body).b7 = h.b7) ∧
    compute_checksum (icmp_header.setChecksum h x) body = compute_checksum h body :=
  ⟨⟨rfl, rfl, rfl, rfl, rfl, rfl⟩, rfl⟩

/-- Decoding the eight encoded bytes of a byte-valued header restores it and
consumes the whole buffer. -/
theorem decode_encode_of_bytes (h : icmp_header)
    (h0 : h.b0 < 256) (h1 : h.b1 < 256) (h2 : h.b2 < 256) (h3 : h.b3 < 256)
    (h4 : h.b4 < 256) (h5 : h.b5 < 256) (h6 : h.b6 < 256) (h7 : h.b7 < 256) :
    icmp_header.decode (icmp_header.encode h) = some (h, []) := by
  simp [icmp_header.decode, icmp_header.encode, Nat.mod_eq_of_lt, h0, h1, h2, h3,
    h4, h5, h6, h7]

/-- C8: decoding the 8-byte buffer produced by encoding a header built from
(type, code, identifier, sequence) with its checksum computed and embedded
returns exactly the original field values and the computed checksum. -/
theorem icmp_encode_decode (t c i s : Nat) (body : List Nat)
    (ht : t < 256) (hc : c < 256) (hi : i < 65536) (hs : s < 65536) :
    ∃ h' : icmp_header,
      icmp_header.decode
        (icmp_header.encode
          (compute_checksum
            ((((icmp_header.zero.setType t).setCode c).setIdentifier i).setSequenceNumber s)
            body)) = some (h', []) ∧
      h'.type = t ∧ h'.code = c ∧ h'.identifier = i ∧ h'.sequence_number = s ∧
      h'.checksum =
        (compute_checksum
          ((((icmp_header.zero.setType t).setCode c).setIdentifier i).setSequenceNumber s)
          body).checksum := by
  refine ⟨compute_checksum
      ((((icmp_header.zero.setType t).setCode c).setIdentifier i).setSequenceNumber s)
      body, ?_, ?_, ?_, ?_, ?_, rfl⟩
  · apply decode_encode_of_bytes <;>
      simp only [compute_checksum, icmp_header.setChecksum, icmp_header.setType,
        icmp_header.setCode, icmp_header.setIdentifier, icmp_header.setSequenceNumber,
        icmp_header.zero] <;> omega
  · simp only [compute_checksum, icmp_header.setChecksum, icmp_header.setType,
      icmp_header.setCode, icmp_header.setIdentifier, icmp_header.setSequenceNumber,
      icmp_header.zero, icmp_header.type]
    omega
  · simp only [compute_checksum, icmp_header.setChecksum, icmp_header.setType,
      icmp_header.setCode, icmp_header.setIdentifier, icmp_header.setSequenceNumber,
      icmp_header.zero, icmp_header.code]
    omega
  · simp only [compute_checksum, icmp_header.setChecksum, icmp_header.setType,
      icmp_header.setCode, icmp_header.setIdentifier, icmp_header.setSequenceNumber,
      icmp_header.zero, icmp_header.identifier]
    omega
  · simp only [compute_checksum, icmp_header.setChecksum, icmp_header.setType,
      icmp_header.setCode, icmp_header.setIdentifier, icmp_header.setSequenceNumber,
      icmp_header.zero, icmp_header.sequence_number]
    omega

/-- Witness for C8 at a concrete field tuple and body. -/
theorem icmp_encode_decode_witness :
    ∃ h' : icmp_header,
      icmp_header.decode
        (icmp_header.encode
          (compute_checksum
            ((((icmp_header.zero.setType 8).setCode 0).setIdentifier 7).setSequenceNumber 3)
            [1, 2, 3])) = some (h', []) ∧
      h'.type = 8 ∧ h'.code = 0 ∧ h'.identifier = 7 ∧ h'.sequence_number = 3 ∧
      h'.checksum =
        (compute_checksum
          ((((icmp_header.zero.setType 8).setCode 0).setIdentifier 7).setSequenceNumber 3)
          [1, 2, 3]).checksum :=
  icmp_encode_decode 8 0 7 3 [1, 2, 3] (by norm_num) (by norm_num) (by norm_num)
    (by norm_num)

/-- Head byte of the representation list built by `decode_ipv4`. -/
theorem getD_zero_map_take (input : List Nat) (k : Nat) (tailL : List Nat)
    (hk : 0 < k) (h : input ≠ []) :
    (((input.take k).map fun b => b % 256) ++ tailL).getD 0 0 =
      input.getD 0 0 % 256 := by
  cases input with
  | nil => exact absurd rfl h
  | cons x xs =>
    cases k with
    | zero => exact absurd hk (by omega)
    | succ n => simp [List.getD]

/-- C7: decoding an IPv4 header fails whenever the version field of the first
byte is not 4, and whenever the header-length field implies an options length
that is negative or exceeds 40 bytes; on success exactly
`header_length − 20` bytes beyond the fixed 20 are consumed. -/
theorem ipv4_decode_validates :
    (∀ input : List Nat, input.getD 0 0 % 256 / 16 % 16 ≠ 4 →
        decode_ipv4 input = none) ∧
    (∀ input : List Nat,
        (((input.getD 0 0 % 256 % 16 * 4 : Nat) : Int) - 20 < 0 ∨
         ((input.getD 0 0 % 256 % 16 * 4 : Nat) : Int) - 20 > 40) →
        decode_ipv4 input = none) ∧
    (∀ (input : List Nat) (ip : ipv4_header) (rest : List Nat),
        decode_ipv4 input = some (ip, rest) →
        20 ≤ ip.header_length ∧ ip.header_length - 20 ≤ 40 ∧
        rest = input.drop (20 + (ip.header_length - 20))) := by
  refine ⟨?_, ?_, ?_⟩
  · intro input h
    simp only [decode_ipv4]
    repeat' split
    all_goals simp_all
  · intro input h
    simp only [decode_ipv4]
    repeat' split
    all_goals simp_all
  · intro input ip rest hsome
    simp only [decode_ipv4] at hsome
    split at hsome
    next hlen => simp at hsome
    next hlen =>
      split at hsome
      next hver => simp at hsome
      next hver =>
        split at hsome
        next hopt => simp at hsome
        next hopt =>
          split at hsome
          next hlen2 => simp at hsome
          next hlen2 =>
            simp only [Option.some.injEq, Prod.mk.injEq] at hsome
            obtain ⟨hip, hrest⟩ := hsome
            subst hip
            subst hrest
            have hne : input ≠ [] := by
              cases input
              · simp at hlen
              · simp
            have hl : (ipv4_header.mk
                (((input.take (20 + ((((input.getD 0 0 % 256 % 16 * 4 : Nat) : Int) - 20).toNat))).map
                    fun b => b % 256) ++
                  List.replicate (40 - ((((input.getD 0 0 % 256 % 16 * 4 : Nat) : Int) - 20).toNat)) 0)).header_length =
                input.getD 0 0 % 256 % 16 * 4 := by
              unfold ipv4_header.header_length
              rw [getD_zero_map_take input _ _ (by omega) hne]
            rw [hl]
            refine ⟨by omega, by omega, ?_⟩
            have harg : 20 + (input.getD 0 0 % 256 % 16 * 4 - 20) =
                20 + ((((input.getD 0 0 % 256 % 16 * 4 : Nat) : Int) - 20).toNat) := by
              omega
            rw [harg]

/-- Witness for C7: a version-5 header is rejected, a header-length nibble of
1 (options length −16) is rejected, and a well-formed 28-byte datagram with
header length 20 leaves exactly the 8 trailing bytes unread. -/
theorem ipv4_decode_validates_witness :
    decode_ipv4 (80 :: List.replicate 19 0) = none ∧
    decode_ipv4 (65 :: List.replicate 19 0) = none ∧
    (20 ≤ (ipv4_header.mk (69 :: List.replicate 59 0)).header_length ∧
     (ipv4_header.mk (69 :: List.replicate 59 0)).header_length - 20 ≤ 40 ∧
     List.replicate 8 0 = (69 :: List.replicate 27 0).drop
       (20 + ((ipv4_header.mk (69 :: List.replicate 59 0)).header_length - 20))) :=
  ⟨ipv4_decode_validates.1 _ (by decide),
   ipv4_decode_validates.2.1 _ (Or.inl (by decide)),
   ipv4_decode_validates.2.2 (69 :: List.replicate 27 0) _ _ (by decide)⟩

/-! ## Pinger state machine -/

theorem sequence_number_setSequenceNumber (h : icmp_header) (n : Nat) :
    (icmp_header.setSequenceNumber h n).sequence_number = n % 65536 := by
  simp only [icmp_header.setSequenceNumber, icmp_header.sequence_number]
  omega

theorem compute_checksum_sequence_number (h : icmp_header) (body : List Nat) :
    (compute_checksum h body).sequence_number = h.sequence_number := rfl

/-- C2 counterexample: with the request (sequence 1) sent at t = 0 ms and no
reply delivered, the trace of the cycle shows the next send at t = 5000 ms —
no send ever occurs at t = 6000 ms, contradicting the claimed t+6s. -/
theorem quiet_cycle_counterexample :
    send_events (quiet_cycle 0 0 pinger_init).1 = [(0, 1), (5000, 2)] ∧
    ¬ ∃ p ∈ send_events (quiet_cycle 0 0 pinger_init).1, p.1 = 6000 := by
  constructor <;> decide

set_option maxHeartbeats 1000000 in
/-- The full timestamped trace of a quiet cycle, by computation. -/
theorem quiet_cycle_trace (ident : Nat) (t0 : Int) (st0 : pinger_state) :
    (quiet_cycle ident t0 st0).1 =
      [(t0, action.sendPacket
          (compute_checksum
            ((((icmp_header.zero.setType 8).setCode 0).setIdentifier
                (ident % 65536)).setSequenceNumber ((st0.sequence_number + 1) % 65536))
            (List.replicate 56 122)) (List.replicate 56 122) t0),
       (t0, action.armTimer (t0 + 5000) handlerTag.onTimeout),
       (max t0 (t0 + 5000), action.printTimedOut),
       (max t0 (t0 + 5000), action.armTimer (t0 + 1000) handlerTag.onSend),
       (max (max t0 (t0 + 5000)) (t0 + 1000), action.sendPacket
          (compute_checksum
            ((((icmp_header.zero.setType 8).setCode 0).setIdentifier
                (ident % 65536)).setSequenceNumber
              (((st0.sequence_number + 1) % 65536 + 1) % 65536))
            (List.replicate 56 122)) (List.replicate 56 122)
          (max (max t0 (t0 + 5000)) (t0 + 1000))),
       (max (max t0 (t0 + 5000)) (t0 + 1000),
        action.armTimer (max (max t0 (t0 + 5000)) (t0 + 1000) + 5000)
          handlerTag.onTimeout)] := rfl

/-- Sends extracted from a trace of the quiet-cycle shape. -/
theorem send_events_shape (t1 t2 t3 t4 t5 t6 : Int) (h1 h2 : icmp_header)
    (b1 b2 : List Nat) (u1 u2 : Int) (d1 d2 d3 : Int) (g1 g2 g3 : handlerTag) :
    send_events [(t1, action.sendPacket h1 b1 u1), (t2, action.armTimer d1 g1),
      (t3, action.printTimedOut), (t4, action.armTimer d2 g2),
      (t5, action.sendPacket h2 b2 u2), (t6, action.armTimer d3 g3)] =
      [(t1, h1.sequence_number), (t5, h2.sequence_number)] := rfl

set_option maxHeartbeats 1000000 in
/-- C2 (amended): in a cycle where the request with sequence number s is sent
at time t and no reply is delivered, exactly one timed-out notice is emitted
and the next send occurs at t+5s — immediately after the timeout fires,
because the re-armed deadline `time_sent_ + 1s` has already passed — carrying
sequence number s+1. -/
theorem quiet_cycle_spec (ident : Nat) (t0 : Int) (st0 : pinger_state)
    (hseq : st0.sequence_number + 2 < 65536) :
    countTimedOut (quiet_cycle ident t0 st0).1 = 1 ∧
    send_events (quiet_cycle ident t0 st0).1 =
      [(t0, st0.sequence_number + 1), (t0 + 5000, st0.sequence_number + 2)] := by
  have hmax1 : max t0 (t0 + 5000) = t0 + 5000 := max_eq_right (by omega)
  have hmax2 : max (t0 + 5000) (t0 + 1000) = t0 + 5000 := max_eq_left (by omega)
  constructor
  · rw [quiet_cycle_trace]
    rfl
  · rw [quiet_cycle_trace, hmax1, hmax2, send_events_shape,
      compute_checksum_sequence_number, compute_checksum_sequence_number,
      sequence_number_setSequenceNumber, sequence_number_setSequenceNumber]
    simp only [List.cons.injEq, Prod.mk.injEq]
    refine ⟨⟨trivial, by omega⟩, ⟨trivial, by omega⟩, trivial⟩

/-- Witness for the amended C2 at ident 0, t = 0, initial state. -/
theorem quiet_cycle_spec_witness :
    countTimedOut (quiet_cycle 0 0 pinger_init).1 = 1 ∧
    send_events (quiet_cycle 0 0 pinger_init).1 = [(0, 0 + 1), (0 + 5000, 0 + 2)] :=
  quiet_cycle_spec 0 0 pinger_init (by decide)

/-- C3: the claim fails on the code.  A datagram whose receive completes
5001 ms after the send — here even a perfectly matching echo reply — takes
the early `return` of `handle_receive`, whose effect list is empty: the
receive is not re-armed (and no later `start_receive` discards the buffer),
so the receive loop stops after a stale datagram. -/
theorem stale_receive_not_rearmed :
    handle_receive 0 errc.ok (69 :: List.replicate 27 0) 5001 pinger_init =
      (pinger_init, []) ∧
    countRearm
      (handle_receive 0 errc.ok (69 :: List.replicate 27 0) 5001 pinger_init).2 = 0 :=
  ⟨rfl, rfl⟩

/-- C6: the claim fails on the code.  `handle_termination` divides `ttl_sum_`
and `ttl_sum2_` by `num_received_` unconditionally; with transmitted = 5 and
received = 0 both quotients are divisions by zero (non-finite values in the
program, `none` in the embedding), so mean and mdev are not reported as a
well-defined no-data state. -/
theorem termination_divides_by_zero :
    (handle_termination { pinger_init with num_transmitted := 5 }).rtt_avg = none ∧
    (handle_termination { pinger_init with num_transmitted := 5 }).rtt_mdev_sq = none ∧
    (handle_termination { pinger_init with num_transmitted := 5 }).packets_transmitted = 5 ∧
    (handle_termination { pinger_init with num_transmitted := 5 }).packets_received = 0 := by
  refine ⟨?_, ?_, ?_, ?_⟩ <;> decide

/-- C9 counterexample: from a session state whose counter has reached 65535,
the next send carries sequence number 0, which is not strictly greater. -/
theorem sequence_wrap_counterexample :
    sent_seqs (start_send 0 0 { pinger_init with sequence_number := 65535 }).2 = [0] ∧
    (start_send 0 0 { pinger_init with sequence_number := 65535 }).1.sequence_number = 0 ∧
    ¬ 65535 < 0 := by
  refine ⟨by decide, by decide, by omega⟩

/-- The action list of `start_send`, by computation. -/
theorem start_send_actions (ident : Nat) (now : Int) (st : pinger_state) :
    (start_send ident now st).2 =
      [action.sendPacket
        (compute_checksum
          ((((icmp_header.zero.setType 8).setCode 0).setIdentifier
              (ident % 65536)).setSequenceNumber ((st.sequence_number + 1) % 65536))
          (List.replicate 56 122)) (List.replicate 56 122) now,
       action.armTimer (now + 5000) handlerTag.onTimeout] := rfl

/-- Sends extracted from an action list of the `start_send` shape. -/
theorem sent_seqs_shape (h : icmp_header) (b : List Nat) (u d : Int) (g : handlerTag) :
    sent_seqs [action.sendPacket h b u, action.armTimer d g] = [h.sequence_number] := rfl

/-- C9 (amended): each send carries (previous + 1) mod 2^16, so consecutive
sends carry strictly increasing sequence numbers exactly as long as the
16-bit counter has not wrapped. -/
theorem sequence_increment (ident : Nat) (now : Int) (st : pinger_state) :
    sent_seqs (start_send ident now st).2 = [(st.sequence_number + 1) % 65536] ∧
    (start_send ident now st).1.sequence_number = (st.sequence_number + 1) % 65536 ∧
    (st.sequence_number < 65535 →
      st.sequence_number < (start_send ident now st).1.sequence_number) := by
  refine ⟨?_, rfl, ?_⟩
  · rw [start_send_actions, sent_seqs_shape, compute_checksum_sequence_number,
      sequence_number_setSequenceNumber]
    have hmm : ((st.sequence_number + 1) % 65536) % 65536 =
        (st.sequence_number + 1) % 65536 := by omega
    rw [hmm]
  · intro hlt
    show st.sequence_number < (st.sequence_number + 1) % 65536
    omega

/-- Witness for the amended C9 at the initial state. -/
theorem sequence_increment_witness :
    pinger_init.sequence_number < (start_send 0 0 pinger_init).1.sequence_number :=
  (sequence_increment 0 0 pinger_init).2.2 (by decide)

set_option maxRecDepth 8192 in
/-- C4: every datagram that is stale (older than the 5-second window), fails
to decode, or fails the type/identifier/sequence filter is dropped: the state
— hence the received counter and every RTT statistic — is unchanged, no
report line is printed, and the timer is not cancelled. -/
theorem dropped_datagram_no_effect (ident : Nat) (data : List Nat) (now : Int)
    (st : pinger_state)
    (h : now - st.time_sent > 5000 ∨ decode_reply data = none ∨
        (∀ ip ic, decode_reply data = some (ip, ic) →
          ic.type ≠ 0 ∨ ic.identifier ≠ ident % 65536 ∨
          ic.sequence_number ≠ st.sequence_number)) :
    (handle_receive ident errc.ok data now st).1 = st ∧
    countReport (handle_receive ident errc.ok data now st).2 = 0 ∧
    countCancel (handle_receive ident errc.ok data now st).2 = 0 := by
  simp only [handle_receive]
  split
  · exact ⟨rfl, rfl, rfl⟩
  · next hfresh =>
    split
    · exact ⟨rfl, rfl, rfl⟩
    · next ip ic hdd =>
      split
      · next hacc =>
        rcases h with h | h | h
        · exact absurd h hfresh
        · rw [h] at hdd
          cases hdd
        · obtain ⟨h0, hid, hsq⟩ := hacc
          rcases h ip ic hdd with h' | h' | h' <;> contradiction
      · exact ⟨rfl, rfl, rfl⟩

/-- Witness for C4: the empty datagram fails to decode and is dropped. -/
theorem dropped_datagram_no_effect_witness :
    (handle_receive 0 errc.ok [] 0 pinger_init).1 = pinger_init ∧
    countReport (handle_receive 0 errc.ok [] 0 pinger_init).2 = 0 ∧
    countCancel (handle_receive 0 errc.ok [] 0 pinger_init).2 = 0 :=
  dropped_datagram_no_effect 0 [] 0 pinger_init (Or.inr (Or.inl (by decide)))

/-- A reply satisfying the acceptance conditions produces exactly the
statistics update, one report line, and a cancellation exactly when it is
the first reply of the cycle. -/
theorem handle_receive_accepted (ident : Nat) (data : List Nat) (now : Int)
    (st : pinger_state) (h : accepts ident st data now) :
    (handle_receive ident errc.ok data now st).1 = { st with
        num_replies := st.num_replies + 1,
        num_received := st.num_received + 1,
        ttl_min := min st.ttl_min ((now - st.time_sent : Int) : Rat),
        ttl_max := max st.ttl_max ((now - st.time_sent : Int) : Rat),
        ttl_sum := st.ttl_sum + ((now - st.time_sent : Int) : Rat),
        ttl_sum2 := st.ttl_sum2 +
          ((now - st.time_sent : Int) : Rat) * ((now - st.time_sent : Int) : Rat) } ∧
    countReport (handle_receive ident errc.ok data now st).2 = 1 ∧
    countCancel (handle_receive ident errc.ok data now st).2 =
      (if st.num_replies = 0 then 1 else 0) := by
  obtain ⟨hfresh, ip, ic, hdec, h0, hid, hsq⟩ := h
  simp only [handle_receive, if_neg hfresh, hdec]
  rw [if_pos ⟨h0, hid, hsq⟩]
  refine ⟨rfl, ?_, ?_⟩
  · split <;> rfl
  · split <;> rfl

/-- Cumulative effect of a sequence of accepted replies delivered in one
cycle (the send state — sequence number and send time — never changes, so
acceptance relative to the starting state is preserved throughout). -/
theorem handle_receive_all_accepted (ident : Nat) (events : List (List Nat × Int))
    (st : pinger_state) (hall : ∀ p ∈ events, accepts ident st p.1 p.2) :
    (handle_receive_all ident events st).1.sequence_number = st.sequence_number ∧
    (handle_receive_all ident events st).1.time_sent = st.time_sent ∧
    (handle_receive_all ident events st).1.num_replies = st.num_replies + events.length ∧
    (handle_receive_all ident events st).1.num_received = st.num_received + events.length ∧
    ((handle_receive_all ident events st).2.map countReport) =
      List.replicate events.length 1 ∧
    ((handle_receive_all ident events st).2.map countCancel) =
      (if st.num_replies = 0 then
        (match events with
         | [] => []
         | _ :: rest => 1 :: List.replicate rest.length 0)
       else List.replicate events.length 0) ∧
    (handle_receive_all ident events st).1.ttl_sum =
      st.ttl_sum + (rtts st.time_sent events).sum ∧
    (handle_receive_all ident events st).1.ttl_sum2 =
      st.ttl_sum2 + ((rtts st.time_sent events).map (fun r => r * r)).sum ∧
    (handle_receive_all ident events st).1.ttl_min =
      (rtts st.time_sent events).foldl min st.ttl_min ∧
    (handle_receive_all ident events st).1.ttl_max =
      (rtts st.time_sent events).foldl max st.ttl_max := by
  induction events generalizing st with
  | nil =>
    refine ⟨rfl, rfl, by simp [handle_receive_all], by simp [handle_receive_all], rfl,
      by split <;> rfl, by simp [handle_receive_all, rtts],
      by simp [handle_receive_all, rtts], rfl, rfl⟩
  | cons e rest ih =>
    obtain ⟨d, t⟩ := e
    have hacc : accepts ident st d t := hall (d, t) (List.mem_cons_self _ _)
    obtain ⟨hst1, hrep1, hcan1⟩ := handle_receive_accepted ident d t st hacc
    have hrest : ∀ p ∈ rest, accepts ident ((handle_receive ident errc.ok d t st).1) p.1 p.2 := by
      intro p hp
      have h2 := hall p (List.mem_cons_of_mem _ hp)
      rw [hst1]
      exact h2
    obtain ⟨ih1, ih2, ih3, ih4, ih5, ih6, ih7, ih8, ih9, ih10⟩ :=
      ih ((handle_receive ident errc.ok d t st).1) hrest
    simp only [handle_receive_all]
    refine ⟨?_, ?_, ?_, ?_, ?_, ?_, ?_, ?_, ?_, ?_⟩
    · rw [ih1, hst1]
    · rw [ih2, hst1]
    · rw [ih3, hst1]
      simp only [List.length_cons]
      omega
    · rw [ih4, hst1]
      simp only [List.length_cons]
      omega
    · simp only [List.map_cons, List.length_cons, List.replicate_succ]
      rw [hrep1, ih5]
    · simp only [List.map_cons, List.length_cons]
      rw [hcan1, ih6, hst1]
      dsimp only
      rw [if_neg (Nat.succ_ne_zero _)]
      rcases Nat.eq_zero_or_pos st.num_replies with hz | hz
      · rw [hz]
        simp
      · rw [if_neg (by omega), if_neg (by omega), List.replicate_succ]
    · rw [ih7, hst1]
      simp only [rtts, List.map_cons, List.sum_cons]
      rw [add_assoc]
    · rw [ih8, hst1]
      simp only [rtts, List.map_cons, List.sum_cons]
      rw [add_assoc]
    · rw [ih9, hst1]
      simp only [rtts, List.map_cons, List.foldl_cons]
    · rw [ih10, hst1]
      simp only [rtts, List.map_cons, List.foldl_cons]

set_option maxRecDepth 8192 in
/-- C5: when several replies for the outstanding sequence number are all
accepted within one cycle (the per-cycle reply counter starts at 0), only the
first accepted reply cancels the pending timeout timer, while every accepted
reply increments the received counter, folds its RTT into min/max/sum/sum²,
and produces exactly one report line. -/
theorem multiple_replies_one_cancel (ident : Nat) (st : pinger_state)
    (e : List Nat × Int) (rest : List (List Nat × Int))
    (hreplies : st.num_replies = 0)
    (hall : ∀ p ∈ e :: rest, accepts ident st p.1 p.2) :
    (handle_receive_all ident (e :: rest) st).1.num_received =
      st.num_received + (e :: rest).length ∧
    ((handle_receive_all ident (e :: rest) st).2.map countReport) =
      List.replicate (e :: rest).length 1 ∧
    ((handle_receive_all ident (e :: rest) st).2.map countCancel) =
      1 :: List.replicate rest.length 0 ∧
    (handle_receive_all ident (e :: rest) st).1.ttl_sum =
      st.ttl_sum + (rtts st.time_sent (e :: rest)).sum ∧
    (handle_receive_all ident (e :: rest) st).1.ttl_sum2 =
      st.ttl_sum2 + ((rtts st.time_sent (e :: rest)).map (fun r => r * r)).sum ∧
    (handle_receive_all ident (e :: rest) st).1.ttl_min =
      (rtts st.time_sent (e :: rest)).foldl min st.ttl_min ∧
    (handle_receive_all ident (e :: rest) st).1.ttl_max =
      (rtts st.time_sent (e :: rest)).foldl max st.ttl_max := by
  obtain ⟨h1, h2, h3, h4, h5, h6, h7, h8, h9, h10⟩ :=
    handle_receive_all_accepted ident (e :: rest) st hall
  rw [hreplies] at h6
  simp only [if_pos rfl] at h6
  exact ⟨h4, h5, h6, h7, h8, h9, h10⟩

set_option maxRecDepth 8192 in
/-- Witness for C5: two identical matching echo replies arriving 0 ms and
1 ms after the send are both counted and reported, and only the first
cancels the timer. -/
theorem multiple_replies_one_cancel_witness :
    (handle_receive_all 0 [(69 :: List.replicate 27 0, 0), (69 :: List.replicate 27 0, 1)]
        pinger_init).1.num_received = pinger_init.num_received + 2 ∧
    ((handle_receive_all 0 [(69 :: List.replicate 27 0, 0), (69 :: List.replicate 27 0, 1)]
        pinger_init).2.map countReport) = List.replicate 2 1 ∧
    ((handle_receive_all 0 [(69 :: List.replicate 27 0, 0), (69 :: List.replicate 27 0, 1)]
        pinger_init).2.map countCancel) = 1 :: List.replicate 1 0 :=
  have h := multiple_replies_one_cancel 0 pinger_init (69 :: List.replicate 27 0, 0)
    [(69 :: List.replicate 27 0, 1)] rfl (by
      intro p hp
      simp only [List.mem_cons, List.not_mem_nil, or_false] at hp
      rcases hp with rfl | rfl
      · exact ⟨by decide, ⟨69 :: List.replicate 59 0⟩, icmp_header.zero, by decide,
          by decide, by decide, by decide⟩
      · exact ⟨by decide, ⟨69 :: List.replicate 59 0⟩, icmp_header.zero, by decide,
          by decide, by decide, by decide⟩)
  ⟨h.1, h.2.1, h.2.2.1⟩

end Nettool
